import Mathlib

/-!
Verification of the CallAnalysis repository call-ingestion, transcription
and duplicate-detection core.  The Lean definitions below are shallow
embeddings of the Python functions in src/Audio_Recognition.py and
src/Image_Recognition.py: pure computations are translated directly,
Python floats are modelled as rationals, Python `None`/empty values as
`Option`, and the external decode/transcription collaborators as explicit
environments recording the outcome of each call the code makes.
-/

namespace CallAnalysis

/-! ## Audio_Recognition.py: effectiveness classification

`process_file` computes `is_valid_call = duration_seconds >= 60`
(line 732).  Durations are modelled as rationals. -/

/-- Embeds `is_valid_call = duration_seconds >= 60` from process_file. -/
def is_valid_call (duration_seconds : ℚ) : Bool :=
  duration_seconds ≥ 60

/-! ## Audio_Recognition.py: extract_duration_from_result

The vendor payload is a JSON object; the fields the function reads are
modelled as options.  Numeric JSON values are modelled as rationals; a
top-level `duration` whose value is not numeric fails the `isinstance`
check in the source and is modelled as `none`. -/

structure Utterance where
  end_time : Option ℚ
deriving Repr

structure ResultField where
  utterances : Option (List Utterance)
  text : Option String
deriving Repr

structure AudioInfo where
  duration : Option ℚ
deriving Repr

structure Payload where
  audio_info : Option AudioInfo
  result : Option ResultField
  duration : Option ℚ
deriving Repr

/-- Method 1 of extract_duration_from_result: the explicit
`audio_info.duration` field (milliseconds), used when present and
strictly positive. -/
def durFromAudioInfo (p : Payload) : Option ℚ :=
  match p.audio_info with
  | some ai =>
    match ai.duration with
    | some dms => if dms > 0 then some (dms / 1000) else none
    | none => none
  | none => none

/-- The loop in the source computing the maximum `end_time` over utterances
(`max_end_time` starts at 0, each missing `end_time` reads as 0). -/
def maxEndTime (us : List Utterance) : ℚ :=
  us.foldl (fun m u => if (u.end_time.getD 0) > m then u.end_time.getD 0 else m) 0

/-- Method 2 of extract_duration_from_result: maximum utterance end time
(milliseconds), used when the list exists, is non-empty, and the maximum
is strictly positive. -/
def durFromUtterances (p : Payload) : Option ℚ :=
  match p.result with
  | some r =>
    match r.utterances with
    | some us =>
      if us.length > 0 then
        (if maxEndTime us > 0 then some (maxEndTime us / 1000) else none)
      else none
    | none => none
  | none => none

/-- Method 3 of extract_duration_from_result: a top-level `duration`
field; values above 1000 are read as milliseconds, others as seconds. -/
def durFromTopLevel (p : Payload) : Option ℚ :=
  match p.duration with
  | some d =>
    if d > 0 then some (if d > 1000 then d / 1000 else d) else none
  | none => none

/-- Method 4 of extract_duration_from_result: estimate one second per 3
characters of the transcript text, when the text is non-empty. -/
def durFromText (p : Payload) : Option ℚ :=
  match p.result with
  | some r =>
    match r.text with
    | some t =>
      if t ≠ "" then
        (if ((t.length : ℚ) / 3) > 0 then some ((t.length : ℚ) / 3) else none)
      else none
    | none => none
  | none => none

/-- Embeds extract_duration_from_result: the four methods are tried in
order, the first that returns a value wins, and 1.0 second is the final
fallback. -/
def extract_duration_from_result (p : Payload) : ℚ :=
  match durFromAudioInfo p with
  | some d => d
  | none =>
    match durFromUtterances p with
    | some d => d
    | none =>
      match durFromTopLevel p with
      | some d => d
      | none =>
        match durFromText p with
        | some d => d
        | none => 1

/-! ## Audio_Recognition.py: the transcription poll loop of process_file

The vendor is modelled as a stream of status-code strings, one per poll.
The source classifies `"20000000"` as completion, `"20000001"` and
`"20000002"` as in-progress, and anything else as failure. -/

inductive PollStatus where
  | complete
  | inProgress
  | failed
deriving DecidableEq, Repr

/-- Classification of a vendor status code, as in the branch structure of
the poll loop in process_file. -/
def classifyStatus (code : String) : PollStatus :=
  if code = "20000000" then .complete
  else if code = "20000001" ∨ code = "20000002" then .inProgress
  else .failed

/-- `max_retries = 60` in process_file. -/
def max_retries : ℕ := 60

/-- The fixed poll interval: `await asyncio.sleep(5)` in process_file. -/
def pollIntervalSeconds : ℕ := 5

inductive PollOutcome where
  | completed
  | failed
  | timeout
deriving DecidableEq, Repr

/-- One run of the poll loop: the terminal outcome, the number of polls
issued, and the total seconds slept. -/
structure PollRun where
  outcome : PollOutcome
  polls : ℕ
  sleptSeconds : ℕ
deriving DecidableEq, Repr

/-- Embeds the `while retry_count < max_retries` loop of process_file,
with `fuel` the remaining permitted iterations (`max_retries - rc`) and
`rc` the current retry count, used to index the poll stream: each
iteration issues one poll, exits on completion or failure, and otherwise
increments the count and sleeps 5 seconds; exhausting the bound yields
the timeout outcome. -/
def pollGo (resp : ℕ → String) : ℕ → ℕ → PollRun
  | 0, _ => ⟨.timeout, 0, 0⟩
  | fuel + 1, rc =>
    match classifyStatus (resp rc) with
    | .complete => ⟨.completed, 1, 0⟩
    | .failed => ⟨.failed, 1, 0⟩
    | .inProgress =>
      let rest := pollGo resp fuel (rc + 1)
      ⟨rest.outcome, rest.polls + 1, rest.sleptSeconds + pollIntervalSeconds⟩

/-- The poll loop entered with `retry_count = 0`, as in process_file. -/
def pollLoop (resp : ℕ → String) : PollRun :=
  pollGo resp max_retries 0

/-! ## Audio_Recognition.py: _try_universal_format_conversion

The pydub decode backend is external; an input file is modelled by the
outcome of each decode call the function can make: `fromWav` is the
result of `AudioSegment.from_wav` (decoded length in milliseconds, or
`none` for an exception), `fromAuto` the result of format auto-detection
via `AudioSegment.from_file`, and `fromFmt f` the result of
`AudioSegment.from_file(..., format=f)`.  Exporting a decoded clip and
re-reading the exported file are modelled as faithful: the re-read WAV
has the duration of the decoded clip and the file-size gate passes, so
the post-export verification in the source succeeds exactly when the decoded
duration gate does. -/

structure DecodeEnv where
  fromWav : Option ℕ
  fromAuto : Option ℕ
  fromFmt : String → Option ℕ

/-- The explicit codec list `formats_to_try` in the source. -/
def formats_to_try : List String := ["aac", "m4a", "mp4", "ogg", "flac", "mp3"]

/-- The final codec loop (for fmt in formats_to_try) of the source: a decode that
succeeds with more than 1000 ms is accepted; shorter or failing decodes
continue with the next codec. -/
def tryFormatsChain (env : DecodeEnv) : List String → Bool
  | [] => false
  | f :: rest =>
    match env.fromFmt f with
    | some d => if d > 1000 then true else tryFormatsChain env rest
    | none => tryFormatsChain env rest

/-- Embeds _try_universal_format_conversion: first a WAV decode (accepted
above 1000 ms, otherwise falling through), then format auto-detection
(accepted above 1000 ms; a successful short decode returns False without
trying the codec list), then the codec list. -/
def tryUniversalFormatConversion (env : DecodeEnv) : Bool :=
  match env.fromWav with
  | some d =>
    if d > 1000 then true
    else
      match env.fromAuto with
      | some d2 => if d2 > 1000 then true else false
      | none => tryFormatsChain env formats_to_try
  | none =>
    match env.fromAuto with
    | some d2 => if d2 > 1000 then true else false
    | none => tryFormatsChain env formats_to_try

/-- Modelled from the spec: the decode chain as the specification words
it, for comparison with tryUniversalFormatConversion above.  Every
strategy is gated by the >1000 ms check and a short decode always lets
the chain continue with the next strategy.  (The first strategy of the specification, a native-format decode by declared extension, has no counterpart at all in the source function, which never receives the extension; it is therefore absent here as well, which only makes this spec model closer to the code than the specification text.) -/
def specDecodeChain (env : DecodeEnv) : Bool :=
  (match env.fromWav with
   | some d => decide (d > 1000)
   | none => false) ||
  (match env.fromAuto with
   | some d => decide (d > 1000)
   | none => false) ||
  tryFormatsChain env formats_to_try

/-! ## Image_Recognition.py: string machinery for calculate_time_similarity

The Python function works with `re`; the specific regular expressions it
uses are compiled here by hand into character-list matchers with the same
leftmost-search and alternative-priority semantics.  Whitespace is
modelled as the ASCII whitespace characters space, tab, newline and
carriage return (the characters that the regex class of whitespace and str.strip in Python treat as
whitespace on the data this code sees), and `\d` as the ASCII digits. -/

/-- Whitespace for the purposes of strip / collapse / the regex class. -/
def isWsChar (c : Char) : Bool :=
  c == ' ' || c == '\t' || c == '\n' || c == '\r'

/-- Python str.strip: remove leading and trailing whitespace. -/
def pyStrip (l : List Char) : List Char :=
  ((l.dropWhile isWsChar).reverse.dropWhile isWsChar).reverse

/-- Worker for collapseWs; the flag records whether the previous character
was part of a whitespace run already replaced by a single space. -/
def collapseWsGo : Bool → List Char → List Char
  | _, [] => []
  | inRun, c :: t =>
    if isWsChar c then
      if inRun then collapseWsGo true t else ' ' :: collapseWsGo true t
    else c :: collapseWsGo false t

/-- Embeds re.sub of one-or-more whitespace with a single space. -/
def collapseWs (l : List Char) : List Char :=
  collapseWsGo false l

/-- Worker for subAmPm; the fuel argument only forces structural
termination and is always supplied as the list length, which each step
strictly exceeds the shrinkage of the list, so the fuel never runs out. -/
def subAmPmGo : ℕ → List Char → List Char
  | 0, l => l
  | _ + 1, [] => []
  | _ + 1, [c] => [c]
  | fuel + 1, c1 :: c2 :: t =>
    if c1 = '上' ∧ c2 = '午' then '上' :: '午' :: subAmPmGo fuel (t.dropWhile isWsChar)
    else if c1 = '下' ∧ c2 = '午' then '下' :: '午' :: subAmPmGo fuel (t.dropWhile isWsChar)
    else if c1 = 'A' ∧ c2 = 'M' then 'A' :: 'M' :: subAmPmGo fuel (t.dropWhile isWsChar)
    else if c1 = 'P' ∧ c2 = 'M' then 'P' :: 'M' :: subAmPmGo fuel (t.dropWhile isWsChar)
    else c1 :: subAmPmGo fuel (c2 :: t)

/-- Embeds the substitution that rewrites a time-of-day marker followed by
whitespace to the bare marker (the markers are the two Chinese day-half
words and AM/PM). -/
def subAmPm (l : List Char) : List Char :=
  subAmPmGo l.length l

/-- Embeds the substitution that deletes the bare day-half markers, used on
the extracted time-of-day part before comparing and parsing it. -/
def removeAmPmMarks : List Char → List Char
  | [] => []
  | [c] => [c]
  | c1 :: c2 :: t =>
    if c1 = '上' ∧ c2 = '午' then removeAmPmMarks t
    else if c1 = '下' ∧ c2 = '午' then removeAmPmMarks t
    else if c1 = 'A' ∧ c2 = 'M' then removeAmPmMarks t
    else if c1 = 'P' ∧ c2 = 'M' then removeAmPmMarks t
    else c1 :: removeAmPmMarks (c2 :: t)

/-- re.search: try the position matcher at every suffix, leftmost first. -/
def searchWith {α : Type} (m : List Char → Option α) : List Char → Option α
  | [] => m []
  | c :: t =>
    match m (c :: t) with
    | some a => some a
    | none => searchWith m t

/-- First alternative (in priority order) on which the continuation
succeeds: the backtracking discipline of the regex engine. -/
def firstSome {α β : Type} (f : α → Option β) : List α → Option β
  | [] => none
  | a :: t =>
    match f a with
    | some b => some b
    | none => firstSome f t

/-- Match exactly n digits at the head. -/
def takeDigitsCount : ℕ → List Char → Option (List Char × List Char)
  | 0, l => some ([], l)
  | _ + 1, [] => none
  | n + 1, c :: t =>
    if c.isDigit then (takeDigitsCount n t).map (fun p => (c :: p.1, p.2)) else none

/-- The alternatives of a greedy one-to-two digit quantifier, longest
first, as (matched, rest) pairs. -/
def digits12 (l : List Char) : List (List Char × List Char) :=
  (takeDigitsCount 2 l).toList ++ (takeDigitsCount 1 l).toList

/-- Maximal non-empty digit run at the head (a greedy one-or-more digit
quantifier whose follow set is digit-free needs no backtracking). -/
def digitRun (l : List Char) : Option (List Char × List Char) :=
  let ds := l.takeWhile Char.isDigit
  if ds = [] then none else some (ds, l.drop ds.length)

/-- Count from n down to 0: the alternative order of a greedy star. -/
def descRange : ℕ → List ℕ
  | 0 => [0]
  | k + 1 => (k + 1) :: descRange k

/-- The alternatives of a greedy whitespace star at the head of `l`:
the rests after dropping k whitespace characters, largest k first. -/
def wsAlts (l : List Char) : List (List Char) :=
  (descRange (l.takeWhile isWsChar).length).map (fun k => l.drop k)

/-- Match one character out of a class. -/
def charIn (cs : List Char) : List Char → Option (Char × List Char)
  | [] => none
  | c :: t => if cs.contains c then some (c, t) else none

/-- Match a literal character sequence, returning the rest. -/
def dropLiteral : List Char → List Char → Option (List Char)
  | [], l => some l
  | _ :: _, [] => none
  | p :: ps, c :: t => if c = p then dropLiteral ps t else none

/-- The lazy one-or-more capture followed by newline-or-end: it succeeds
when at least one non-newline character is available and captures up to
the first newline. -/
def tryCapture (r : List Char) : Option (List Char) :=
  match r with
  | [] => none
  | c :: _ => if c = '\n' then none else some (r.takeWhile (fun x => x ≠ '\n'))

/-- Backtracking over the whitespace star that precedes the lazy capture:
try consuming k+1, k, ..., 0 whitespace characters. -/
def wsCaptureDesc (s : List Char) : ℕ → Option (List Char)
  | 0 => tryCapture s
  | k + 1 =>
    match tryCapture (s.drop (k + 1)) with
    | some c => some c
    | none => wsCaptureDesc s k

/-- Whitespace star (greedy) then the lazy capture to newline-or-end. -/
def wsThenCapture (s : List Char) : Option (List Char) :=
  wsCaptureDesc s (s.takeWhile isWsChar).length

/-- The call-time label pattern anchored at a position: the four-character
label, an ASCII or full-width colon, optional whitespace, then the rest
of the line as capture. -/
def callTimeLabelAt (l : List Char) : Option (List Char) :=
  match dropLiteral ['通', '话', '时', '间'] l with
  | some r1 =>
    match r1 with
    | c :: r2 => if c = ':' ∨ c = '：' then wsThenCapture r2 else none
    | [] => none
  | none => none

/-- The extraction in the source of the concrete time from a conversation-text
blob: if the label pattern matches anywhere the stripped capture replaces
the string, otherwise the string is kept. -/
def extractCallTimeField (l : List Char) : List Char :=
  match searchWith callTimeLabelAt l with
  | some cap => pyStrip cap
  | none => l

/-- The full normalisation pipeline applied to each argument of
calculate_time_similarity before comparison and parsing: strip, collapse
whitespace runs, normalise day-half markers, extract the labelled time. -/
def normalizeTimeStr (s : String) : List Char :=
  extractCallTimeField (subAmPm (collapseWs (pyStrip s.data)))

/-- The hour-minute pattern (one or two digits, a colon of either width,
two digits), returning the matched text and the rest. -/
def timeHMAt (l : List Char) : Option (List Char × List Char) :=
  firstSome (fun a =>
    match charIn [':', '：'] a.2 with
    | some (cc, r) =>
      match takeDigitsCount 2 r with
      | some (dd, rest) => some (a.1 ++ cc :: dd, rest)
      | none => none
    | none => none) (digits12 l)

/-- Alternatives of the optional day-half group, in priority order. -/
def ampmAlts (l : List Char) : List (List Char × List Char) :=
  (match dropLiteral ['上', '午'] l with
   | some r => [(['上', '午'], r)]
   | none => []) ++
  (match dropLiteral ['下', '午'] l with
   | some r => [(['下', '午'], r)]
   | none => []) ++
  [([], l)]

/-- Chinese date pattern of parse_datetime, anchored at a position:
month-day date, optional whitespace, optional day-half marker, then the
hour-minute part.  Returns (date capture, marker ++ time capture) exactly
as the source builds its return value for the three-group pattern. -/
def p1At (l : List Char) : Option (List Char × List Char) :=
  firstSome (fun a1 =>
    match charIn ['月'] a1.2 with
    | some (_, r1) =>
      firstSome (fun a2 =>
        match charIn ['日'] a2.2 with
        | some (_, r2) =>
          firstSome (fun r3 =>
            firstSome (fun ap =>
              match timeHMAt ap.2 with
              | some (tm, _) => some (a1.1 ++ '月' :: a2.1 ++ ['日'], ap.1 ++ tm)
              | none => none) (ampmAlts r3)) (wsAlts r2)
        | none => none) (digits12 r1)
    | none => none) (digits12 l)

/-- Standard date pattern of parse_datetime, anchored at a position:
four-digit year, a year separator, one-or-two-digit month, a month
separator, one-or-two-digit day, an optional day suffix, whitespace, then
the hour-minute part. -/
def p2At (l : List Char) : Option (List Char × List Char) :=
  match takeDigitsCount 4 l with
  | some (y, r0) =>
    match charIn ['-', '/', '年'] r0 with
    | some (s1, r1) =>
      firstSome (fun a2 =>
        match charIn ['-', '/', '月'] a2.2 with
        | some (s2, r2) =>
          firstSome (fun a3 =>
            firstSome (fun db =>
              firstSome (fun r5 =>
                match timeHMAt r5 with
                | some (tm, _) => some (db.1, tm)
                | none => none) (wsAlts db.2))
              ((match charIn ['日'] a3.2 with
                | some (_, r4) => [(y ++ s1 :: a2.1 ++ s2 :: a3.1 ++ ['日'], r4)]
                | none => []) ++
               [(y ++ s1 :: a2.1 ++ s2 :: a3.1, a3.2)])) (digits12 r2)
        | none => none) (digits12 r1)
    | none => none
  | none => none

/-- ISO-like pattern of parse_datetime, anchored at a position. -/
def p3At (l : List Char) : Option (List Char × List Char) :=
  match takeDigitsCount 4 l with
  | some (y, r0) =>
    match charIn ['-'] r0 with
    | some (_, r1) =>
      match takeDigitsCount 2 r1 with
      | some (mo, r2) =>
        match charIn ['-'] r2 with
        | some (_, r3) =>
          match takeDigitsCount 2 r3 with
          | some (dy, r4) =>
            firstSome (fun r5 =>
              match takeDigitsCount 2 r5 with
              | some (hh, r6) =>
                match charIn [':'] r6 with
                | some (_, r7) =>
                  match takeDigitsCount 2 r7 with
                  | some (mm, _) => some (y ++ '-' :: mo ++ '-' :: dy, hh ++ ':' :: mm)
                  | none => none
                | none => none
              | none => none) (wsAlts r4)
          | none => none
        | none => none
      | none => none
    | none => none
  | none => none

/-- Short day-month pattern of parse_datetime, anchored at a position. -/
def p4At (l : List Char) : Option (List Char × List Char) :=
  match takeDigitsCount 2 l with
  | some (d1, r0) =>
    match charIn ['/'] r0 with
    | some (_, r1) =>
      match takeDigitsCount 2 r1 with
      | some (d2, r2) =>
        firstSome (fun r5 =>
          match takeDigitsCount 2 r5 with
          | some (hh, r6) =>
            match charIn [':'] r6 with
            | some (_, r7) =>
              match takeDigitsCount 2 r7 with
              | some (mm, _) => some (d1 ++ '/' :: d2, hh ++ ':' :: mm)
              | none => none
            | none => none
          | none => none) (wsAlts r2)
      | none => none
    | none => none
  | none => none

/-- Embeds parse_datetime: the four patterns are searched over the whole
string in order and the first match yields (date part, time part). -/
def parseDatetime (l : List Char) : Option (List Char × List Char) :=
  match searchWith p1At l with
  | some r => some r
  | none =>
    match searchWith p2At l with
    | some r => some r
    | none =>
      match searchWith p3At l with
      | some r => some r
      | none => searchWith p4At l

/-! ## Image_Recognition.py: the similarity scorers -/

/-- Python truthiness of an optional string: absent and empty are falsy. -/
def truthyStr : Option String → Bool
  | none => false
  | some s => s != ""

/-- Replace full-width colons by ASCII colons (str.replace in the source). -/
def replFullColon (l : List Char) : List Char :=
  l.map (fun c => if c = '：' then ':' else c)

/-- Python str.split on a colon. -/
def splitOnColon : List Char → List (List Char)
  | [] => [[]]
  | c :: t =>
    let r := splitOnColon t
    if c = ':' then [] :: r
    else
      match r with
      | [] => [[c]]
      | h :: rt => (c :: h) :: rt

/-- Python int() on a captured digit string. -/
def toNatDigits (l : List Char) : Option ℕ :=
  if l = [] then none
  else if l.all Char.isDigit then
    some (l.foldl (fun n c => n * 10 + (c.toNat - '0'.toNat)) 0)
  else none

/-- The cleanup in the source of a time-of-day part: delete day-half markers
and strip. -/
def cleanTimePart (t : List Char) : List Char :=
  pyStrip (removeAmPmMarks t)

/-- Total minutes of a cleaned time-of-day part; `none` models the
unpack/int ValueError the source catches with the 0.5 fallback. -/
def minutesOf (timeOnly : List Char) : Option ℕ :=
  match splitOnColon (replFullColon (cleanTimePart timeOnly)) with
  | [a, b] =>
    match toNatDigits a, toNatDigits b with
    | some h, some m => some (h * 60 + m)
    | _, _ => none
  | _ => none

/-- The minute-difference score tiers of calculate_time_similarity. -/
def tierFromMinutes (diff : ℕ) : ℚ :=
  if diff = 0 then 1
  else if diff ≤ 3 then 19/20
  else if diff ≤ 5 then 9/10
  else if diff ≤ 10 then 7/10
  else if diff ≤ 15 then 1/2
  else 1/5

/-- The same-date branch of calculate_time_similarity: equal cleaned time
parts score 1, otherwise the minute-difference tier, with 0.5 when the
time parts fail to parse. -/
def sameDateScore (t1o t2o : List Char) : ℚ :=
  if cleanTimePart t1o = cleanTimePart t2o then 1
  else
    match minutesOf t1o, minutesOf t2o with
    | some m1, some m2 => tierFromMinutes (Int.natAbs ((m1 : ℤ) - (m2 : ℤ)))
    | _, _ => 1/2

/-- Python str.replace of spaces with nothing. -/
def removeSpaces (l : List Char) : List Char :=
  l.filter (fun c => c != ' ')

/-- Positions at which two equal-length strings differ. -/
def diffCount (a b : List Char) : ℕ :=
  (a.zip b).countP (fun p => p.1 != p.2)

/-- The parse-failure fallback of calculate_time_similarity: 0.95 for
space-only differences, 0.8 for at most two differing characters at equal
length, otherwise 0. -/
def fallbackScore (a b : List Char) : ℚ :=
  if removeSpaces a = removeSpaces b then 19/20
  else if a.length = b.length ∧ diffCount a b ≤ 2 then 4/5
  else 0

/-- Embeds calculate_time_similarity from Image_Recognition.py. -/
def calculate_time_similarity (time1 time2 : Option String) : ℚ :=
  if ¬ truthyStr time1 ∨ ¬ truthyStr time2 then 0
  else
    let a := normalizeTimeStr (time1.getD "")
    let b := normalizeTimeStr (time2.getD "")
    if a = b then 1
    else
      match parseDatetime a, parseDatetime b with
      | some (d1, t1o), some (d2, t2o) =>
        if d1 ≠ d2 then 0 else sameDateScore t1o t2o
      | _, _ => fallbackScore a b

/-- Embeds calculate_duration_similarity: absolute difference in seconds
mapped to tiers, 0 when either duration is missing. -/
def calculate_duration_similarity (duration1 duration2 : Option ℤ) : ℚ :=
  match duration1, duration2 with
  | some a, some b =>
    let diff := (a - b).natAbs
    if diff = 0 then 1
    else if diff ≤ 3 then 19/20
    else if diff ≤ 5 then 9/10
    else if diff ≤ 10 then 4/5
    else if diff ≤ 15 then 3/5
    else if diff ≤ 30 then 2/5
    else 1/10
  | _, _ => 0

/-- Python str.lower (the inputs here are ASCII or Chinese, on which the
ASCII lowering agrees with Python). -/
def toLowerList (l : List Char) : List Char :=
  l.map Char.toLower

/-- Does the first list occur at the head of the second? -/
def startsWithChars : List Char → List Char → Bool
  | [], _ => true
  | _ :: _, [] => false
  | p :: ps, c :: t => if c = p then startsWithChars ps t else false

/-- Python substring containment (an empty string is contained in any). -/
def hasSubChars (small : List Char) : List Char → Bool
  | [] => decide (small = [])
  | c :: t => startsWithChars small (c :: t) || hasSubChars small t

/-- The character-overlap count of the source: characters of the first string
that occur anywhere in the second. -/
def countCommonChars (a b : List Char) : ℕ :=
  a.countP (fun c => b.contains c)

/-- Embeds calculate_text_similarity from Image_Recognition.py.  The
division guard mirrors the bare except returning 0.0 (only a zero
divisor could raise there). -/
def calculate_text_similarity (text1 text2 : Option String) : ℚ :=
  if ¬ truthyStr text1 ∨ ¬ truthyStr text2 then 1/2
  else
    let a := toLowerList (pyStrip (text1.getD "").data)
    let b := toLowerList (pyStrip (text2.getD "").data)
    if a = b then 1
    else if hasSubChars a b || hasSubChars b a then 4/5
    else if a.length > 0 ∧ b.length > 0 ∧ a.headD ' ' = b.headD ' ' then 3/5
    else
      let mx := max a.length b.length
      if mx = 0 then 0 else min (1/2) ((countCommonChars a b : ℚ) / mx)

/-! ## Image_Recognition.py: extract_duration_from_analysis -/

/-- First duration pattern anchored at a position: a seconds label, a
colon of either width, whitespace, then a digit run. -/
def durPat1At (l : List Char) : Option ℕ :=
  match dropLiteral ['时', '长', '秒', '数'] l with
  | some r0 =>
    match charIn [':', '：'] r0 with
    | some (_, r1) =>
      match digitRun (r1.dropWhile isWsChar) with
      | some (ds, _) => toNatDigits ds
      | none => none
    | none => none
  | none => none

/-- Second duration pattern anchored at a position: a digit run,
whitespace, then the seconds character. -/
def durPat2At (l : List Char) : Option ℕ :=
  match digitRun l with
  | some (ds, r) =>
    match charIn ['秒'] (r.dropWhile isWsChar) with
    | some _ => toNatDigits ds
    | none => none
  | none => none

/-- Third duration pattern anchored at a position: a call-duration label,
a colon, whitespace, a digit run, whitespace, the seconds character. -/
def durPat3At (l : List Char) : Option ℕ :=
  match dropLiteral ['通', '话', '时', '长'] l with
  | some r0 =>
    match charIn [':', '：'] r0 with
    | some (_, r1) =>
      match digitRun (r1.dropWhile isWsChar) with
      | some (ds, r2) =>
        match charIn ['秒'] (r2.dropWhile isWsChar) with
        | some _ => toNatDigits ds
        | none => none
      | none => none
    | none => none
  | none => none

/-- The minutes:seconds duration pattern anchored at a position. -/
def durPat4At (l : List Char) : Option ℕ :=
  match dropLiteral ['通', '话', '时', '长'] l with
  | some r0 =>
    match charIn [':', '：'] r0 with
    | some (_, r1) =>
      firstSome (fun a =>
        match charIn [':'] a.2 with
        | some (_, r2) =>
          match takeDigitsCount 2 r2 with
          | some (ss, _) =>
            match toNatDigits a.1, toNatDigits ss with
            | some m, some s => some (m * 60 + s)
            | _, _ => none
          | none => none
        | none => none) (digits12 (r1.dropWhile isWsChar))
    | none => none
  | none => none

/-- Embeds extract_duration_from_analysis: the three direct-seconds
patterns then the minutes:seconds pattern, first match wins, `none` when
the text is empty or nothing matches. -/
def extract_duration_from_analysis (analysis_text : String) : Option ℤ :=
  if analysis_text = "" then none
  else
    match searchWith durPat1At analysis_text.data with
    | some n => some (n : ℤ)
    | none =>
      match searchWith durPat2At analysis_text.data with
      | some n => some (n : ℤ)
      | none =>
        match searchWith durPat3At analysis_text.data with
        | some n => some (n : ℤ)
        | none =>
          match searchWith durPat4At analysis_text.data with
          | some n => some (n : ℤ)
          | none => none

/-! ## Image_Recognition.py: weights, total similarity, deduplication -/

structure Weights where
  call_time_match : ℚ
  call_duration_match : ℚ
  contact_name_match : ℚ
  company_name_match : ℚ
deriving DecidableEq, Repr

/-- The default DUPLICATE_DETECTION_WEIGHTS dictionary. -/
def DUPLICATE_DETECTION_WEIGHTS : Weights :=
  ⟨1/2, 3/10, 1/10, 1/10⟩

/-- The DUPLICATE_THRESHOLD constant (0.7). -/
def DUPLICATE_THRESHOLD : ℚ := 7/10

/-- A call-record dictionary; only the keys the duplicate detector reads
are modelled, each as an optional value (absent key = `none`). -/
structure PyCall where
  call_time : Option String
  conversation_text : Option String
  analysis_text : Option String
  duration_seconds : Option ℤ
  contact_info : Option String
  contact_person : Option String
  company_name : Option String
deriving Repr

/-- Embeds adjust_weights_for_missing_data: an attribute counts as
missing when it is absent or empty on either record. -/
def adjust_weights_for_missing_data (call1 call2 : PyCall) : Weights :=
  let contact_missing := !(truthyStr call1.contact_person && truthyStr call2.contact_person)
  let company_missing := !(truthyStr call1.company_name && truthyStr call2.company_name)
  if contact_missing && company_missing then ⟨3/5, 3/10, 1/20, 1/20⟩
  else if contact_missing then ⟨11/20, 3/10, 1/20, 1/10⟩
  else if company_missing then ⟨11/20, 3/10, 1/10, 1/20⟩
  else DUPLICATE_DETECTION_WEIGHTS

/-- The dictionary calculate_similarity builds to rename the new record's
fields before the weight adjustment. -/
def call1Adjusted (c1 : PyCall) : PyCall :=
  ⟨none, none, none, none, none, c1.contact_info, c1.company_name⟩

/-- Embeds calculate_similarity: the four component scores combined with
the adaptively adjusted weights. -/
def calculate_similarity (call1 call2 : PyCall) : ℚ :=
  let time_sim := calculate_time_similarity call1.call_time call2.conversation_text
  let duration_sim := calculate_duration_similarity call1.duration_seconds
    (extract_duration_from_analysis (call2.analysis_text.getD ""))
  let contact_sim := calculate_text_similarity call1.contact_info call2.contact_person
  let company_sim := calculate_text_similarity call1.company_name call2.company_name
  let weights := adjust_weights_for_missing_data (call1Adjusted call1) call2
  time_sim * weights.call_time_match + duration_sim * weights.call_duration_match +
    contact_sim * weights.contact_name_match + company_sim * weights.company_name_match

structure SkippedEntry where
  call : PyCall
  matched_call : Option PyCall
  similarity : ℚ
deriving Repr

structure DedupResult where
  processed_calls : List PyCall
  skipped_calls : List SkippedEntry
  skip_count : ℕ
  process_count : ℕ
deriving Repr

/-- The inner loop of smart_duplicate_detection: running maximum
similarity (strictly improving, starting from 0) and its record. -/
def bestMatchFold (nc : PyCall) (existing : List PyCall) : ℚ × Option PyCall :=
  existing.foldl
    (fun acc ec =>
      if calculate_similarity nc ec > acc.1 then (calculate_similarity nc ec, some ec) else acc)
    (0, none)

/-- Embeds smart_duplicate_detection: every new call whose best similarity
against the existing records reaches the threshold is skipped, the rest
are processed. -/
def smart_duplicate_detection (new_calls existing_calls : List PyCall) : DedupResult :=
  let pair := new_calls.foldl
    (fun (acc : List PyCall × List SkippedEntry) nc =>
      let best := bestMatchFold nc existing_calls
      if best.1 ≥ DUPLICATE_THRESHOLD then (acc.1, acc.2 ++ [⟨nc, best.2, best.1⟩])
      else (acc.1 ++ [nc], acc.2))
    ([], [])
  ⟨pair.1, pair.2, pair.2.length, pair.1.length⟩

/-! ## Image_Recognition.py: check_image_duplicates

The database collaborator is modelled by the outcome of the one call the
function makes: `none` models check_duplicate_filenames raising.  The
empty-input early return of the source omits the three count keys; it is
modelled with zero counts. -/

structure UpFile where
  name : String
deriving DecidableEq, Repr

structure DupInfo where
  filename : String
deriving DecidableEq, Repr

structure DupDbResult where
  duplicates : List DupInfo
  new_files : List String
deriving Repr

structure CheckResult where
  has_duplicates : Bool
  duplicates : List DupInfo
  new_files : List String
  duplicate_files : List UpFile
  clean_files : List UpFile
  total_images : ℕ
  duplicate_count : ℕ
  new_count : ℕ
deriving Repr

/-- Embeds check_image_duplicates: the normal path partitions the files by
the database answer; the exception path treats every file as new. -/
def check_image_duplicates (uploaded_images : List UpFile)
    (dbRes : Option DupDbResult) : CheckResult :=
  if uploaded_images = [] then
    ⟨false, [], [], [], uploaded_images, 0, 0, 0⟩
  else
    match dbRes with
    | some r =>
      ⟨r.duplicates.length > 0, r.duplicates, r.new_files,
        uploaded_images.filter (fun f => (r.duplicates.map DupInfo.filename).contains f.name),
        uploaded_images.filter (fun f => r.new_files.contains f.name),
        uploaded_images.length, r.duplicates.length, r.new_files.length⟩
    | none =>
      ⟨false, [], uploaded_images.map UpFile.name, [], uploaded_images,
        uploaded_images.length, 0, uploaded_images.length⟩

/-! ## Audio_Recognition.py: per-file pipeline and batch orchestration

process_file is dominated by I/O; it is modelled by the outcome of each
external step it takes, in the order the source takes them.  Every error
path of the source returns an error dictionary for that file (the final
catch-all except turns any unexpected exception, modelled by the
`unexpected` field, into such a dictionary too), so the model is a total
function into a per-file result. -/

inductive FileResult where
  | success
  | error (msg : String)
deriving DecidableEq, Repr

structure FileEnv where
  fileExists : Bool
  fileSize : ℕ
  validAudioMs : Option ℕ
  isAac : Bool
  conversionOk : Bool
  uploadOk : Bool
  pollResp : ℕ → String
  unexpected : Option String

/-- Embeds the control flow of process_file: each failing step yields an
error result for this file only. -/
def processFile (e : FileEnv) : FileResult :=
  if !e.fileExists then .error "file does not exist"
  else if e.fileSize = 0 then .error "file is empty"
  else
    match e.validAudioMs with
    | none => .error "invalid or corrupt audio"
    | some dms =>
      if dms < 100 then .error "audio too short"
      else if e.isAac && !e.conversionOk then .error "aac conversion failed"
      else if !e.uploadOk then .error "upload failed"
      else
        match (pollLoop e.pollResp).outcome with
        | .failed => .error "transcription failed"
        | .timeout => .error "transcription timed out"
        | .completed =>
          match e.unexpected with
          | some m => .error m
          | none => .success

/-- Embeds process_all_files: one task per file, results gathered in
completion order; the completion order is a permutation of the submitted
batch, supplied explicitly since the scheduler is external. -/
def processAllFiles (completionOrder : List FileEnv) : List FileResult :=
  completionOrder.map processFile

/-- Counts an error entry of a batch result. -/
def isErrorResult : FileResult → Bool
  | .success => false
  | .error _ => true

/-! ## Concrete inputs used by witnesses and counterexamples -/

/-- A new call record with both text attributes present. -/
def callW1 : PyCall :=
  ⟨some "2025-06-24 11:14", none, none, some 74, some "张三", some "张三", some "A公司"⟩

/-- An existing record matching callW1 closely. -/
def callW2 : PyCall :=
  ⟨none, some "通话时间: 2025-06-24 11:14", some "时长秒数: 74", none, none, some "张三", some "A公司"⟩

/-- An existing record with no usable attributes. -/
def callW3 : PyCall :=
  ⟨none, none, none, none, none, none, none⟩

/-- An existing record whose contact attribute is missing while the new
record callW1 carries both text attributes. -/
def callW4 : PyCall :=
  ⟨none, none, none, none, none, none, some "A公司"⟩

/-- A vendor payload carrying both an explicit 74000 ms audio-info
duration and an inconsistent utterance end time. -/
def payloadW : Payload :=
  ⟨some ⟨some 74000⟩, some ⟨some [⟨some 999999⟩], some "text"⟩, some 50⟩

/-- A decode environment on which WAV decoding raises, auto-detection
decodes 500 ms, and an aac decode would yield 5000 ms. -/
def envC6 : DecodeEnv :=
  ⟨none, some 500, fun f => if f = "aac" then some 5000 else none⟩

/-- A decode environment whose WAV decode yields 2000 ms. -/
def envC6w : DecodeEnv :=
  ⟨some 2000, none, fun _ => none⟩

/-- A file environment for a file whose pipeline succeeds. -/
def fenvOk : FileEnv :=
  ⟨true, 10, some 5000, false, true, true, fun _ => "20000000", none⟩

/-- A file environment for a file that fails audio validation. -/
def fenvBad : FileEnv :=
  ⟨true, 10, none, false, true, true, fun _ => "20000000", none⟩

/-! ## Helper lemmas: score ranges -/

theorem tierFromMinutes_range (d : ℕ) :
    0 ≤ tierFromMinutes d ∧ tierFromMinutes d ≤ 1 := by
  unfold tierFromMinutes
  split <;> [skip; split] <;> [norm_num; norm_num; skip]
  split <;> [norm_num; split] <;> [norm_num; skip]
  split <;> norm_num

theorem sameDateScore_range (a b : List Char) :
    0 ≤ sameDateScore a b ∧ sameDateScore a b ≤ 1 := by
  unfold sameDateScore
  split
  · norm_num
  · split
    · exact tierFromMinutes_range _
    · norm_num

theorem fallbackScore_range (a b : List Char) :
    0 ≤ fallbackScore a b ∧ fallbackScore a b ≤ 1 := by
  unfold fallbackScore
  split
  · norm_num
  · split <;> norm_num

theorem calculate_time_similarity_range (t1 t2 : Option String) :
    0 ≤ calculate_time_similarity t1 t2 ∧ calculate_time_similarity t1 t2 ≤ 1 := by
  unfold calculate_time_similarity
  split
  · norm_num
  · dsimp only
    split
    · norm_num
    · split
      · split
        · norm_num
        · exact sameDateScore_range _ _
      · exact fallbackScore_range _ _

theorem calculate_duration_similarity_range (d1 d2 : Option ℤ) :
    0 ≤ calculate_duration_similarity d1 d2 ∧ calculate_duration_similarity d1 d2 ≤ 1 := by
  unfold calculate_duration_similarity
  split
  · dsimp only
    split_ifs <;> norm_num
  · norm_num

theorem calculate_text_similarity_range (t1 t2 : Option String) :
    0 ≤ calculate_text_similarity t1 t2 ∧ calculate_text_similarity t1 t2 ≤ 1 := by
  unfold calculate_text_similarity
  split
  · norm_num
  · dsimp only
    split
    · norm_num
    · split
      · norm_num
      · split
        · norm_num
        · split
          · norm_num
          · constructor
            · exact le_min (by norm_num) (div_nonneg (Nat.cast_nonneg _) (Nat.cast_nonneg _))
            · exact le_trans (min_le_left _ _) (by norm_num)

/-- The four weight vectors adjust_weights_for_missing_data can return. -/
theorem adjust_weights_cases (c1 c2 : PyCall) :
    adjust_weights_for_missing_data c1 c2 = ⟨3/5, 3/10, 1/20, 1/20⟩ ∨
    adjust_weights_for_missing_data c1 c2 = ⟨11/20, 3/10, 1/20, 1/10⟩ ∨
    adjust_weights_for_missing_data c1 c2 = ⟨11/20, 3/10, 1/10, 1/20⟩ ∨
    adjust_weights_for_missing_data c1 c2 = DUPLICATE_DETECTION_WEIGHTS := by
  unfold adjust_weights_for_missing_data
  dsimp only
  split
  · exact Or.inl rfl
  · split
    · exact Or.inr (Or.inl rfl)
    · split
      · exact Or.inr (Or.inr (Or.inl rfl))
      · exact Or.inr (Or.inr (Or.inr rfl))

theorem calculate_similarity_range (c1 c2 : PyCall) :
    0 ≤ calculate_similarity c1 c2 ∧ calculate_similarity c1 c2 ≤ 1 := by
  have ht := calculate_time_similarity_range c1.call_time c2.conversation_text
  have hd := calculate_duration_similarity_range c1.duration_seconds
    (extract_duration_from_analysis (c2.analysis_text.getD ""))
  have hc := calculate_text_similarity_range c1.contact_info c2.contact_person
  have hco := calculate_text_similarity_range c1.company_name c2.company_name
  unfold calculate_similarity
  dsimp only
  rcases adjust_weights_cases (call1Adjusted c1) c2 with h | h | h | h <;>
    rw [h] <;>
    simp only [DUPLICATE_DETECTION_WEIGHTS] <;>
    constructor <;>
    · obtain ⟨ht1, ht2⟩ := ht
      obtain ⟨hd1, hd2⟩ := hd
      obtain ⟨hc1, hc2⟩ := hc
      obtain ⟨hco1, hco2⟩ := hco
      linarith

/-! ## Helper lemmas: running maximum of the inner dedup loop -/

theorem le_foldl_max (l : List ℚ) (a : ℚ) : a ≤ l.foldl max a := by
  induction l generalizing a with
  | nil => simp
  | cons x t ih => exact le_trans (le_max_left a x) (ih (max a x))

theorem mem_le_foldl_max (l : List ℚ) (a : ℚ) : ∀ x ∈ l, x ≤ l.foldl max a := by
  induction l generalizing a with
  | nil => simp
  | cons y t ih =>
    intro x hx
    rcases List.mem_cons.mp hx with h | h
    · subst h
      exact le_trans (le_max_right a x) (le_foldl_max t (max a x))
    · exact ih (max a y) x h

theorem foldl_max_mem (l : List ℚ) (a : ℚ) : l.foldl max a = a ∨ l.foldl max a ∈ l := by
  induction l generalizing a with
  | nil => simp
  | cons x t ih =>
    simp only [List.foldl_cons]
    rcases ih (max a x) with h | h
    · rcases max_choice a x with hm | hm
      · rw [h, hm]
        exact Or.inl rfl
      · rw [h, hm]
        exact Or.inr (List.mem_cons_self x t)
    · exact Or.inr (List.mem_cons_of_mem x h)

theorem bestMatchFold_fst (nc : PyCall) (ex : List PyCall) :
    (bestMatchFold nc ex).1 = (ex.map (calculate_similarity nc)).foldl max 0 := by
  unfold bestMatchFold
  suffices h : ∀ (l : List PyCall) (m : ℚ) (b : Option PyCall),
      (l.foldl (fun acc ec =>
        if calculate_similarity nc ec > acc.1 then (calculate_similarity nc ec, some ec) else acc)
        (m, b)).1 = (l.map (calculate_similarity nc)).foldl max m by
    exact h ex 0 none
  intro l
  induction l with
  | nil => intro m b; rfl
  | cons e t ih =>
    intro m b
    simp only [List.foldl_cons, List.map_cons]
    by_cases h : calculate_similarity nc e > m
    · rw [if_pos h, ih, max_eq_right (le_of_lt h)]
    · rw [if_neg h, ih, max_eq_left (le_of_not_lt h)]

/-! ## Helper lemmas: the poll loop -/

theorem pollGo_polls_le (resp : ℕ → String) :
    ∀ (fuel rc : ℕ), (pollGo resp fuel rc).polls ≤ fuel := by
  intro fuel
  induction fuel with
  | zero => intro rc; simp [pollGo]
  | succ n ih =>
    intro rc
    simp only [pollGo]
    cases h : classifyStatus (resp rc) with
    | complete => simp
    | failed => simp
    | inProgress =>
      dsimp only
      have := ih (rc + 1)
      omega

theorem pollGo_inProgress_shift (resp : ℕ → String) :
    ∀ (k fuel rc : ℕ),
      (∀ i, i < k → classifyStatus (resp (rc + i)) = .inProgress) →
      pollGo resp (k + fuel) rc =
        ⟨(pollGo resp fuel (rc + k)).outcome,
          (pollGo resp fuel (rc + k)).polls + k,
          (pollGo resp fuel (rc + k)).sleptSeconds + k * pollIntervalSeconds⟩ := by
  intro k
  induction k with
  | zero => intro fuel rc _; simp
  | succ n ih =>
    intro fuel rc hin
    have h0 : classifyStatus (resp rc) = .inProgress := by
      have := hin 0 (by omega)
      simpa using this
    have hstep : n + 1 + fuel = (n + fuel) + 1 := by omega
    rw [hstep]
    simp only [pollGo, h0]
    have ihh := ih fuel (rc + 1) (fun i hi => by
      have := hin (i + 1) (by omega)
      have he : rc + 1 + i = rc + (i + 1) := by omega
      rw [he]
      exact this)
    rw [ihh]
    have he2 : rc + 1 + n = rc + (n + 1) := by omega
    rw [he2]
    dsimp only
    simp only [PollRun.mk.injEq]
    refine ⟨trivial, by omega, ?_⟩
    simp only [Nat.succ_mul]
    omega

theorem pollRun_eq (o : PollOutcome) (p1 p2 s1 s2 : ℕ) (hp : p1 = p2) (hs : s1 = s2) :
    (⟨o, p1, s1⟩ : PollRun) = ⟨o, p2, s2⟩ := by
  rw [hp, hs]

theorem pollGo_complete_step (resp : ℕ → String) (fuel rc : ℕ)
    (h : classifyStatus (resp rc) = .complete) :
    pollGo resp (fuel + 1) rc = ⟨.completed, 1, 0⟩ := by
  simp [pollGo, h]

theorem pollGo_failed_step (resp : ℕ → String) (fuel rc : ℕ)
    (h : classifyStatus (resp rc) = .failed) :
    pollGo resp (fuel + 1) rc = ⟨.failed, 1, 0⟩ := by
  simp [pollGo, h]

/-! ## Helper lemmas: the decode chain -/

theorem tryFormatsChain_iff (env : DecodeEnv) :
    ∀ fs : List String,
      (tryFormatsChain env fs = true ↔ ∃ f ∈ fs, ∃ d, env.fromFmt f = some d ∧ 1000 < d) := by
  intro fs
  induction fs with
  | nil => simp [tryFormatsChain]
  | cons f rest ih =>
    cases hf : env.fromFmt f with
    | none =>
      simp only [tryFormatsChain, hf, ih, List.mem_cons]
      constructor
      · rintro ⟨g, hg, d, hgd, hd⟩
        exact ⟨g, Or.inr hg, d, hgd, hd⟩
      · rintro ⟨g, hg | hg, d, hgd, hd⟩
        · rw [hg, hf] at hgd
          exact absurd hgd (by simp)
        · exact ⟨g, hg, d, hgd, hd⟩
    | some d =>
      by_cases hd : d > 1000
      · simp only [tryFormatsChain, hf, if_pos hd, List.mem_cons]
        constructor
        · intro _
          exact ⟨f, Or.inl rfl, d, hf, hd⟩
        · intro _
          trivial
      · simp only [tryFormatsChain, hf, if_neg hd, ih, List.mem_cons]
        constructor
        · rintro ⟨g, hg, e, hge, he⟩
          exact ⟨g, Or.inr hg, e, hge, he⟩
        · rintro ⟨g, hg | hg, e, hge, he⟩
          · rw [hg, hf] at hge
            injection hge with h2
            omega
          · exact ⟨g, hg, e, hge, he⟩

/-! ## Helper lemmas: positivity of the duration strategies -/

theorem durFromAudioInfo_pos (p : Payload) (d : ℚ) (h : durFromAudioInfo p = some d) :
    0 < d := by
  unfold durFromAudioInfo at h
  split at h
  · split at h
    · split at h
      · injection h with h2
        subst h2
        positivity
      · exact absurd h (by simp)
    · exact absurd h (by simp)
  · exact absurd h (by simp)

theorem durFromUtterances_pos (p : Payload) (d : ℚ) (h : durFromUtterances p = some d) :
    0 < d := by
  unfold durFromUtterances at h
  split at h
  · split at h
    · split at h
      · split at h
        · injection h with h2
          subst h2
          rename_i hmax
          positivity
        · exact absurd h (by simp)
      · exact absurd h (by simp)
    · exact absurd h (by simp)
  · exact absurd h (by simp)

theorem durFromTopLevel_pos (p : Payload) (d : ℚ) (h : durFromTopLevel p = some d) :
    0 < d := by
  unfold durFromTopLevel at h
  split at h
  · split at h
    · injection h with h2
      subst h2
      rename_i hd
      split
      · positivity
      · exact hd
    · exact absurd h (by simp)
  · exact absurd h (by simp)

theorem durFromText_pos (p : Payload) (d : ℚ) (h : durFromText p = some d) :
    0 < d := by
  unfold durFromText at h
  split at h
  · split at h
    · split at h
      · split at h
        · injection h with h2
          subst h2
          rename_i hpos
          exact hpos
        · exact absurd h (by simp)
      · exact absurd h (by simp)
    · exact absurd h (by simp)
  · exact absurd h (by simp)

/-! ## Claim theorems -/

/-- C7: for every duration d the effectiveness verdict of process_file
equals d >= 60.0; the boundary 60.0 is effective and 59.999 is not.  The
verdict is a pure function of d by construction of the embedding. -/
theorem C7_effectiveness :
    (∀ d : ℚ, is_valid_call d = true ↔ 60 ≤ d) ∧
    is_valid_call 60 = true ∧ is_valid_call (59999/1000) = false := by
  refine ⟨fun d => ?_, by with_unfolding_all decide, by with_unfolding_all decide⟩
  simp [is_valid_call, ge_iff_le]

theorem C7_witness : is_valid_call 75 = true :=
  (C7_effectiveness.1 75).mpr (by norm_num)

/-- C4: extract_duration_from_result tries the explicit audio-info
duration, the maximum utterance end time, the magnitude-disambiguated
top-level duration field, and the character-count estimate, in that
order, returning the first strictly positive candidate; the explicit
field wins whenever it is present and positive, 1.0 second is returned
when every strategy fails, and the result is always strictly positive. -/
theorem C4_duration_resolution (p : Payload) :
    0 < extract_duration_from_result p ∧
    (∀ ai d, p.audio_info = some ai → ai.duration = some d → 0 < d →
      extract_duration_from_result p = d / 1000) ∧
    (∀ d, durFromAudioInfo p = some d → extract_duration_from_result p = d) ∧
    (∀ d, durFromAudioInfo p = none → durFromUtterances p = some d →
      extract_duration_from_result p = d) ∧
    (∀ d, durFromAudioInfo p = none → durFromUtterances p = none →
      durFromTopLevel p = some d → extract_duration_from_result p = d) ∧
    (∀ d, durFromAudioInfo p = none → durFromUtterances p = none →
      durFromTopLevel p = none → durFromText p = some d →
      extract_duration_from_result p = d) ∧
    (∀ d, p.duration = some d → 0 < d →
      durFromTopLevel p = some (if d > 1000 then d / 1000 else d)) ∧
    (durFromAudioInfo p = none → durFromUtterances p = none →
      durFromTopLevel p = none → durFromText p = none →
      extract_duration_from_result p = 1) := by
  refine ⟨?_, ?_, ?_, ?_, ?_, ?_, ?_, ?_⟩
  · unfold extract_duration_from_result
    cases h1 : durFromAudioInfo p with
    | some d => exact durFromAudioInfo_pos p d h1
    | none =>
      cases h2 : durFromUtterances p with
      | some d => exact durFromUtterances_pos p d h2
      | none =>
        cases h3 : durFromTopLevel p with
        | some d => exact durFromTopLevel_pos p d h3
        | none =>
          cases h4 : durFromText p with
          | some d => exact durFromText_pos p d h4
          | none => norm_num
  · intro ai d hai had hd
    have h1 : durFromAudioInfo p = some (d / 1000) := by
      unfold durFromAudioInfo
      rw [hai]
      dsimp only
      rw [had]
      dsimp only
      rw [if_pos hd]
    unfold extract_duration_from_result
    rw [h1]
  · intro d h1
    unfold extract_duration_from_result
    rw [h1]
  · intro d h1 h2
    unfold extract_duration_from_result
    rw [h1, h2]
  · intro d h1 h2 h3
    unfold extract_duration_from_result
    rw [h1, h2, h3]
  · intro d h1 h2 h3 h4
    unfold extract_duration_from_result
    rw [h1, h2, h3, h4]
  · intro d hdur hd
    unfold durFromTopLevel
    rw [hdur]
    dsimp only
    rw [if_pos hd]
  · intro h1 h2 h3 h4
    unfold extract_duration_from_result
    rw [h1, h2, h3, h4]

theorem C4_witness : extract_duration_from_result payloadW = 74 := by
  have h := (C4_duration_resolution payloadW).2.1 ⟨some 74000⟩ 74000 rfl rfl (by norm_num)
  rw [h]
  norm_num

/-- C5: the poll loop of process_file polls at the fixed 5-second
interval with a 60-attempt bound; 59 in-progress polls followed by a
completion yield the COMPLETED outcome after exactly 60 polls, 60
in-progress polls yield TIMEOUT (never COMPLETED), a failed poll
terminates immediately with the FAILED outcome (distinct from TIMEOUT)
after exactly k+1 polls, and no run ever issues more than 60 polls; the
loop is a function of the response stream, so each task reaches exactly
one terminal outcome. -/
theorem C5_poll_state_machine (resp : ℕ → String) :
    ((∀ i, i < 59 → classifyStatus (resp i) = .inProgress) →
      classifyStatus (resp 59) = .complete →
      pollLoop resp = ⟨.completed, 60, 59 * pollIntervalSeconds⟩) ∧
    ((∀ i, i < 60 → classifyStatus (resp i) = .inProgress) →
      pollLoop resp = ⟨.timeout, 60, 60 * pollIntervalSeconds⟩ ∧
      (pollLoop resp).outcome ≠ .completed) ∧
    (∀ k, k < max_retries → (∀ i, i < k → classifyStatus (resp i) = .inProgress) →
      classifyStatus (resp k) = .failed →
      pollLoop resp = ⟨.failed, k + 1, k * pollIntervalSeconds⟩ ∧
      PollOutcome.failed ≠ PollOutcome.timeout) ∧
    (pollLoop resp).polls ≤ max_retries := by
  refine ⟨?_, ?_, ?_, pollGo_polls_le resp max_retries 0⟩
  · intro hin hc
    have h := pollGo_inProgress_shift resp 59 1 0 (fun i hi => by simpa using hin i hi)
    have hstep : pollGo resp 1 (0 + 59) = ⟨.completed, 1, 0⟩ := by
      have hcl : classifyStatus (resp (0 + 59)) = .complete := by simpa using hc
      exact pollGo_complete_step resp 0 (0 + 59) hcl
    unfold pollLoop max_retries
    show pollGo resp (59 + 1) 0 = ⟨.completed, 60, 59 * pollIntervalSeconds⟩
    rw [h, hstep]
    exact pollRun_eq _ _ _ _ _ (by dsimp only; try omega) (by dsimp only; simp)
  · intro hin
    have h := pollGo_inProgress_shift resp 60 0 0 (fun i hi => by simpa using hin i hi)
    have hstep : pollGo resp 0 (0 + 60) = ⟨.timeout, 0, 0⟩ := rfl
    have hres : pollLoop resp = ⟨.timeout, 60, 60 * pollIntervalSeconds⟩ := by
      unfold pollLoop max_retries
      show pollGo resp (60 + 0) 0 = ⟨.timeout, 60, 60 * pollIntervalSeconds⟩
      rw [h, hstep]
      exact pollRun_eq _ _ _ _ _ (by dsimp only; try omega) (by dsimp only; simp)
    refine ⟨hres, ?_⟩
    rw [hres]
    simp
  · intro k hk hin hf
    refine ⟨?_, by simp⟩
    have h := pollGo_inProgress_shift resp k (max_retries - k) 0 (fun i hi => by
      simpa using hin i hi)
    have hsplit : max_retries = k + (max_retries - k) := by
      unfold max_retries at hk ⊢
      omega
    obtain ⟨m, hm⟩ : ∃ m, max_retries - k = m + 1 := by
      unfold max_retries at hk ⊢
      exact ⟨59 - k, by omega⟩
    have hstep : pollGo resp (max_retries - k) (0 + k) = ⟨.failed, 1, 0⟩ := by
      rw [hm]
      exact pollGo_failed_step resp m (0 + k) (by simpa using hf)
    unfold pollLoop
    rw [hsplit, h, hstep]
    exact pollRun_eq _ _ _ _ _ (by dsimp only; try omega) (by dsimp only; simp)

theorem C5_witness :
    pollLoop (fun _ => "20000001") = ⟨.timeout, 60, 60 * pollIntervalSeconds⟩ :=
  ((C5_poll_state_machine (fun _ => "20000001")).2.1 (fun i _ => by decide)).1

/-- C6 counterexample: on a file whose WAV decode raises, whose
auto-detected decode lasts only 500 ms, and whose aac decode would last
5000 ms, the source chain returns failure, while the chain the claim
describes (a short decode lets the chain continue to the explicit codec
list) accepts it. -/
theorem C6_counterexample :
    tryUniversalFormatConversion envC6 = false ∧
    envC6.fromAuto = some 500 ∧ ¬ (1000 < 500) ∧
    envC6.fromFmt "aac" = some 5000 ∧ "aac" ∈ formats_to_try ∧ (1000 < 5000) ∧
    specDecodeChain envC6 = true := by
  refine ⟨by decide, rfl, by decide, rfl, by decide, by decide, by decide⟩

/-- C6 (amended): _try_universal_format_conversion tries a WAV decode,
then container/codec auto-detection, then the codec list aac, m4a, mp4,
ogg, flac, mp3, accepting the first decode longer than 1000 ms; a short
or failing WAV decode lets the chain continue and short decodes inside
the codec list continue with the next codec, but a successful
auto-detected decode of at most 1000 ms terminates the whole chain as
failure without consulting the codec list, and no native-by-extension
decode step exists in this function. -/
theorem C6_decode_chain_amended (env : DecodeEnv) :
    (tryUniversalFormatConversion env = true ↔
      (∃ d, env.fromWav = some d ∧ 1000 < d) ∨
      ((¬ ∃ d, env.fromWav = some d ∧ 1000 < d) ∧
        ((∃ d, env.fromAuto = some d ∧ 1000 < d) ∨
          (env.fromAuto = none ∧
            ∃ f ∈ formats_to_try, ∃ d, env.fromFmt f = some d ∧ 1000 < d)))) ∧
    (tryFormatsChain env formats_to_try = true ↔
      ∃ f ∈ formats_to_try, ∃ d, env.fromFmt f = some d ∧ 1000 < d) ∧
    (∀ d, env.fromAuto = some d → d ≤ 1000 →
      (tryUniversalFormatConversion env = true ↔
        ∃ w, env.fromWav = some w ∧ 1000 < w)) := by
  have optCases : ∀ o : Option ℕ, o = none ∨ ∃ d, o = some d := by
    intro o
    cases o
    · exact Or.inl rfl
    · exact Or.inr ⟨_, rfl⟩
  refine ⟨?_, tryFormatsChain_iff env formats_to_try, ?_⟩
  · rcases optCases env.fromWav with hw | ⟨d, hw⟩
    · have hnw : ¬ ∃ e, env.fromWav = some e ∧ 1000 < e := by
        rintro ⟨e, he, _⟩
        rw [hw] at he
        exact absurd he (by simp)
      rcases optCases env.fromAuto with ha | ⟨d2, ha⟩
      · have hval : tryUniversalFormatConversion env = tryFormatsChain env formats_to_try := by
          simp [tryUniversalFormatConversion, hw, ha]
        rw [hval, tryFormatsChain_iff env formats_to_try]
        constructor
        · intro hex
          exact Or.inr ⟨hnw, Or.inr ⟨ha, hex⟩⟩
        · rintro (he | ⟨_, ⟨e, he, hlt⟩ | ⟨_, hex⟩⟩)
          · exact absurd he hnw
          · rw [ha] at he
            exact absurd he (by simp)
          · exact hex
      · by_cases hd2 : d2 > 1000
        · have hval : tryUniversalFormatConversion env = true := by
            simp [tryUniversalFormatConversion, hw, ha, hd2]
          rw [hval]
          simp only [true_iff]
          exact Or.inr ⟨hnw, Or.inl ⟨d2, ha, hd2⟩⟩
        · have hval : tryUniversalFormatConversion env = false := by
            simp [tryUniversalFormatConversion, hw, ha, hd2]
          rw [hval]
          constructor
          · intro hfalse
            exact absurd hfalse (by simp)
          · rintro (he | ⟨_, ⟨e, he, hlt⟩ | ⟨hnone, _⟩⟩)
            · exact absurd he hnw
            · rw [ha] at he
              injection he with he2
              omega
            · rw [ha] at hnone
              exact absurd hnone (by simp)
    · have hnw0 : ¬ d > 1000 → ¬ ∃ e, env.fromWav = some e ∧ 1000 < e := by
        rintro hd ⟨e, he, hlt⟩
        rw [hw] at he
        injection he with he2
        omega
      by_cases hd : d > 1000
      · have hval : tryUniversalFormatConversion env = true := by
          simp [tryUniversalFormatConversion, hw, hd]
        rw [hval]
        simp only [true_iff]
        exact Or.inl ⟨d, hw, hd⟩
      · rcases optCases env.fromAuto with ha | ⟨d2, ha⟩
        · have hval : tryUniversalFormatConversion env = tryFormatsChain env formats_to_try := by
            simp [tryUniversalFormatConversion, hw, ha, hd]
          rw [hval, tryFormatsChain_iff env formats_to_try]
          constructor
          · intro hex
            exact Or.inr ⟨hnw0 hd, Or.inr ⟨ha, hex⟩⟩
          · rintro (he | ⟨_, ⟨e, he, hlt⟩ | ⟨_, hex⟩⟩)
            · exact absurd he (hnw0 hd)
            · rw [ha] at he
              exact absurd he (by simp)
            · exact hex
        · by_cases hd2 : d2 > 1000
          · have hval : tryUniversalFormatConversion env = true := by
              simp [tryUniversalFormatConversion, hw, ha, hd, hd2]
            rw [hval]
            simp only [true_iff]
            exact Or.inr ⟨hnw0 hd, Or.inl ⟨d2, ha, hd2⟩⟩
          · have hval : tryUniversalFormatConversion env = false := by
              simp [tryUniversalFormatConversion, hw, ha, hd, hd2]
            rw [hval]
            constructor
            · intro hfalse
              exact absurd hfalse (by simp)
            · rintro (he | ⟨_, ⟨e, he, hlt⟩ | ⟨hnone, _⟩⟩)
              · exact absurd he (hnw0 hd)
              · rw [ha] at he
                injection he with he2
                omega
              · rw [ha] at hnone
                exact absurd hnone (by simp)
  · intro d ha hd
    rcases optCases env.fromWav with hw | ⟨w, hw⟩
    · have hval : tryUniversalFormatConversion env = false := by
        simp only [tryUniversalFormatConversion, hw, ha]
        rw [if_neg (by omega)]
      rw [hval]
      constructor
      · intro hfalse
        exact absurd hfalse (by simp)
      · rintro ⟨e, he, _⟩
        rw [hw] at he
        exact absurd he (by simp)
    · by_cases hww : w > 1000
      · have hval : tryUniversalFormatConversion env = true := by
          simp [tryUniversalFormatConversion, hw, hww]
        rw [hval]
        simp only [true_iff]
        exact ⟨w, hw, hww⟩
      · have hval : tryUniversalFormatConversion env = false := by
          simp only [tryUniversalFormatConversion, hw, ha]
          rw [if_neg hww, if_neg (by omega)]
        rw [hval]
        constructor
        · intro hfalse
          exact absurd hfalse (by simp)
        · rintro ⟨e, he, hlt⟩
          rw [hw] at he
          injection he with he2
          omega

theorem C6_witness : tryUniversalFormatConversion envC6w = true :=
  ((C6_decode_chain_amended envC6w).1).mpr (Or.inl ⟨2000, rfl, by norm_num⟩)

/-- C8: the batch orchestrator produces exactly one result per submitted
file, in a completion order that is a permutation of the submitted batch;
every per-file outcome is either a success or an error value (the model
of process_file is a total function, mirroring its catch-all exception
handler), and the outcome of one file is independent of its siblings. -/
theorem C8_batch_isolation (envs completionOrder : List FileEnv)
    (hperm : completionOrder.Perm envs) :
    (processAllFiles completionOrder).length = envs.length ∧
    (processAllFiles completionOrder).Perm (envs.map processFile) ∧
    (∀ e ∈ envs, processFile e = .success ∨ ∃ m, processFile e = .error m) := by
  refine ⟨?_, hperm.map processFile, ?_⟩
  · unfold processAllFiles
    rw [List.length_map]
    exact hperm.length_eq
  · intro e _
    cases h : processFile e with
    | success => exact Or.inl rfl
    | error m => exact Or.inr ⟨m, rfl⟩

theorem C8_witness :
    (processAllFiles [fenvOk, fenvBad, fenvOk]).length = 3 ∧
    (processAllFiles [fenvOk, fenvBad, fenvOk]).countP isErrorResult = 1 ∧
    (processAllFiles [fenvOk, fenvBad, fenvOk]).countP (fun r => !(isErrorResult r)) = 2 :=
  ⟨(C8_batch_isolation [fenvOk, fenvBad, fenvOk] [fenvOk, fenvBad, fenvOk]
      (List.Perm.refl _)).1,
   by decide, by decide⟩

/-- C9: the duplicate detector fails open: when the database filename
check raises, check_image_duplicates reports no duplicates and returns
every uploaded file as new; and the time-similarity component is a total
function into scores (its error handlers yield scores, never an
exception), always within the unit interval. -/
theorem C9_fail_open (f0 : UpFile) (rest : List UpFile) :
    check_image_duplicates (f0 :: rest) none =
      ⟨false, [], (f0 :: rest).map UpFile.name, [], f0 :: rest, (f0 :: rest).length, 0,
        (f0 :: rest).length⟩ ∧
    (∀ t1 t2 : Option String,
      0 ≤ calculate_time_similarity t1 t2 ∧ calculate_time_similarity t1 t2 ≤ 1) := by
  refine ⟨?_, fun t1 t2 => calculate_time_similarity_range t1 t2⟩
  rfl

theorem C9_witness :
    (check_image_duplicates [⟨"a.jpg"⟩] none).new_files = ["a.jpg"] ∧
    (check_image_duplicates [⟨"a.jpg"⟩] none).has_duplicates = false ∧
    (check_image_duplicates [⟨"a.jpg"⟩] none).clean_files = [⟨"a.jpg"⟩] := by
  have h := (C9_fail_open ⟨"a.jpg"⟩ []).1
  rw [h]
  exact ⟨rfl, rfl, rfl⟩

/-- C10: each component similarity (time, duration, contact text, company
text) always lies in the closed unit interval, the four adjusted weights
sum to exactly 1 (and are nonnegative) in every branch, and hence the
weighted total similarity of any pair of records lies in the unit
interval. -/
theorem C10_score_invariants :
    (∀ t1 t2 : Option String,
      0 ≤ calculate_time_similarity t1 t2 ∧ calculate_time_similarity t1 t2 ≤ 1) ∧
    (∀ d1 d2 : Option ℤ,
      0 ≤ calculate_duration_similarity d1 d2 ∧ calculate_duration_similarity d1 d2 ≤ 1) ∧
    (∀ t1 t2 : Option String,
      0 ≤ calculate_text_similarity t1 t2 ∧ calculate_text_similarity t1 t2 ≤ 1) ∧
    (∀ c1 c2 : PyCall,
      (adjust_weights_for_missing_data c1 c2).call_time_match +
          (adjust_weights_for_missing_data c1 c2).call_duration_match +
          (adjust_weights_for_missing_data c1 c2).contact_name_match +
          (adjust_weights_for_missing_data c1 c2).company_name_match = 1 ∧
        0 ≤ (adjust_weights_for_missing_data c1 c2).call_time_match ∧
        0 ≤ (adjust_weights_for_missing_data c1 c2).call_duration_match ∧
        0 ≤ (adjust_weights_for_missing_data c1 c2).contact_name_match ∧
        0 ≤ (adjust_weights_for_missing_data c1 c2).company_name_match) ∧
    (∀ c1 c2 : PyCall, 0 ≤ calculate_similarity c1 c2 ∧ calculate_similarity c1 c2 ≤ 1) := by
  refine ⟨calculate_time_similarity_range, calculate_duration_similarity_range,
    calculate_text_similarity_range, ?_, calculate_similarity_range⟩
  intro c1 c2
  rcases adjust_weights_cases c1 c2 with h | h | h | h <;>
    rw [h] <;> norm_num [DUPLICATE_DETECTION_WEIGHTS]

theorem C10_witness :
    0 ≤ calculate_similarity callW1 callW3 ∧ calculate_similarity callW1 callW3 ≤ 1 :=
  C10_score_invariants.2.2.2.2 callW1 callW3

/-- C1: for every new record and non-empty existing list, the total
similarity of a pair is the weighted sum of the four component scores
under the adjusted weights, the value the detector compares is the
highest total across all existing records, and the record is skipped as
a duplicate exactly when that best total reaches the inclusive 0.70
threshold (so a best total of exactly 0.70 is a duplicate and one of
0.69 is not). -/
theorem C1_smart_duplicate_threshold (nc e0 : PyCall) (rest : List PyCall) :
    (∀ c2 : PyCall, calculate_similarity nc c2 =
      calculate_time_similarity nc.call_time c2.conversation_text *
          (adjust_weights_for_missing_data (call1Adjusted nc) c2).call_time_match +
        calculate_duration_similarity nc.duration_seconds
            (extract_duration_from_analysis (c2.analysis_text.getD "")) *
          (adjust_weights_for_missing_data (call1Adjusted nc) c2).call_duration_match +
        calculate_text_similarity nc.contact_info c2.contact_person *
          (adjust_weights_for_missing_data (call1Adjusted nc) c2).contact_name_match +
        calculate_text_similarity nc.company_name c2.company_name *
          (adjust_weights_for_missing_data (call1Adjusted nc) c2).company_name_match) ∧
    ((e0 :: rest).map (calculate_similarity nc)).foldl max 0 ∈
      (e0 :: rest).map (calculate_similarity nc) ∧
    (∀ s ∈ (e0 :: rest).map (calculate_similarity nc),
      s ≤ ((e0 :: rest).map (calculate_similarity nc)).foldl max 0) ∧
    (((smart_duplicate_detection [nc] (e0 :: rest)).skipped_calls.map SkippedEntry.call =
          [nc] ∧
        (smart_duplicate_detection [nc] (e0 :: rest)).processed_calls = []) ↔
      DUPLICATE_THRESHOLD ≤ ((e0 :: rest).map (calculate_similarity nc)).foldl max 0) ∧
    (((smart_duplicate_detection [nc] (e0 :: rest)).processed_calls = [nc] ∧
        (smart_duplicate_detection [nc] (e0 :: rest)).skipped_calls = []) ↔
      ((e0 :: rest).map (calculate_similarity nc)).foldl max 0 < DUPLICATE_THRESHOLD) ∧
    (smart_duplicate_detection [nc] (e0 :: rest)).skip_count +
      (smart_duplicate_detection [nc] (e0 :: rest)).process_count = 1 := by
  have hub := mem_le_foldl_max ((e0 :: rest).map (calculate_similarity nc)) 0
  have hl : ∀ s ∈ (e0 :: rest).map (calculate_similarity nc), 0 ≤ s := by
    intro s hs
    obtain ⟨c, _, rfl⟩ := List.mem_map.mp hs
    exact (calculate_similarity_range nc c).1
  have hmem : ((e0 :: rest).map (calculate_similarity nc)).foldl max 0 ∈
      (e0 :: rest).map (calculate_similarity nc) := by
    rcases foldl_max_mem ((e0 :: rest).map (calculate_similarity nc)) 0 with h0 | hmem
    · have hhead : calculate_similarity nc e0 ∈ (e0 :: rest).map (calculate_similarity nc) := by
        simp
      have hz : calculate_similarity nc e0 = 0 :=
        le_antisymm (h0 ▸ hub _ hhead) (hl _ hhead)
      rw [h0, ← hz]
      exact hhead
    · exact hmem
  have hBF := bestMatchFold_fst nc (e0 :: rest)
  refine ⟨fun c2 => rfl, hmem, hub, ?_⟩
  by_cases hb : DUPLICATE_THRESHOLD ≤ (bestMatchFold nc (e0 :: rest)).1
  · have hsd : smart_duplicate_detection [nc] (e0 :: rest) =
        ⟨[], [⟨nc, (bestMatchFold nc (e0 :: rest)).2, (bestMatchFold nc (e0 :: rest)).1⟩],
          1, 0⟩ := by
      unfold smart_duplicate_detection
      simp only [List.foldl_cons, List.foldl_nil]
      rw [if_pos hb]
      rfl
    refine ⟨?_, ?_, ?_⟩
    · constructor
      · intro _
        rw [← hBF]
        exact hb
      · intro _
        rw [hsd]
        exact ⟨by simp, rfl⟩
    · constructor
      · intro hp
        rw [hsd] at hp
        exact absurd hp.1 (by simp)
      · intro hlt
        rw [← hBF] at hlt
        exact absurd hlt (not_lt.mpr hb)
    · rw [hsd]
      rfl
  · have hsd : smart_duplicate_detection [nc] (e0 :: rest) = ⟨[nc], [], 0, 1⟩ := by
      unfold smart_duplicate_detection
      simp only [List.foldl_cons, List.foldl_nil]
      rw [if_neg hb]
      rfl
    refine ⟨?_, ?_, ?_⟩
    · constructor
      · intro hp
        rw [hsd] at hp
        exact absurd hp.1 (by simp)
      · intro hge
        rw [← hBF] at hge
        exact absurd hge hb
    · constructor
      · intro _
        rw [← hBF]
        exact lt_of_not_le hb
      · intro _
        rw [hsd]
        exact ⟨rfl, rfl⟩
    · rw [hsd]
      rfl

theorem C1_witness :
    (smart_duplicate_detection [callW1] [callW2]).skipped_calls.map SkippedEntry.call =
        [callW1] ∧
    (smart_duplicate_detection [callW1] [callW2]).processed_calls = [] :=
  ((C1_smart_duplicate_threshold callW1 callW2 []).2.2.2.1).mpr
    (by with_unfolding_all decide)

/-- C3 counterexample: the new record callW1 carries both a contact and a
company, yet because the existing record callW4 lacks a contact person
the adjusted time weight is 0.55 rather than the default 0.5 the claim
requires whenever nothing is missing on the new record. -/
theorem C3_counterexample :
    truthyStr callW1.contact_person = true ∧ truthyStr callW1.company_name = true ∧
    adjust_weights_for_missing_data callW1 callW4 = ⟨11/20, 3/10, 1/20, 1/10⟩ ∧
    adjust_weights_for_missing_data callW1 callW4 ≠ DUPLICATE_DETECTION_WEIGHTS := by
  refine ⟨by decide, by decide, by with_unfolding_all decide, by with_unfolding_all decide⟩

/-- C3 (amended): an attribute counts as missing when it is absent or
empty on either the new record or the existing record; with both contact
and company missing the weights become time 0.6 / duration 0.3 / contact
0.05 / company 0.05, with exactly one of the two missing that
default weight of that attribute, namely 0.1 is halved to 0.05 and the other half is
added to the time weight (making it 0.55) while the other weights stay
at their defaults, and with neither missing the defaults apply. -/
theorem C3_weights_amended (c1 c2 : PyCall) :
    ((truthyStr c1.contact_person && truthyStr c2.contact_person) = false →
      (truthyStr c1.company_name && truthyStr c2.company_name) = false →
      adjust_weights_for_missing_data c1 c2 = ⟨3/5, 3/10, 1/20, 1/20⟩) ∧
    ((truthyStr c1.contact_person && truthyStr c2.contact_person) = false →
      (truthyStr c1.company_name && truthyStr c2.company_name) = true →
      adjust_weights_for_missing_data c1 c2 =
        ⟨DUPLICATE_DETECTION_WEIGHTS.call_time_match +
            DUPLICATE_DETECTION_WEIGHTS.contact_name_match / 2,
          DUPLICATE_DETECTION_WEIGHTS.call_duration_match,
          DUPLICATE_DETECTION_WEIGHTS.contact_name_match / 2,
          DUPLICATE_DETECTION_WEIGHTS.company_name_match⟩) ∧
    ((truthyStr c1.contact_person && truthyStr c2.contact_person) = true →
      (truthyStr c1.company_name && truthyStr c2.company_name) = false →
      adjust_weights_for_missing_data c1 c2 =
        ⟨DUPLICATE_DETECTION_WEIGHTS.call_time_match +
            DUPLICATE_DETECTION_WEIGHTS.company_name_match / 2,
          DUPLICATE_DETECTION_WEIGHTS.call_duration_match,
          DUPLICATE_DETECTION_WEIGHTS.contact_name_match,
          DUPLICATE_DETECTION_WEIGHTS.company_name_match / 2⟩) ∧
    ((truthyStr c1.contact_person && truthyStr c2.contact_person) = true →
      (truthyStr c1.company_name && truthyStr c2.company_name) = true →
      adjust_weights_for_missing_data c1 c2 = DUPLICATE_DETECTION_WEIGHTS) := by
  refine ⟨?_, ?_, ?_, ?_⟩ <;>
    · intro hcm hcom
      unfold adjust_weights_for_missing_data
      simp only [hcm, hcom, Bool.not_false, Bool.not_true, Bool.and_self, Bool.and_false,
        Bool.false_and, Bool.and_true, Bool.true_and, if_true, if_false]
      all_goals norm_num [DUPLICATE_DETECTION_WEIGHTS, Weights.mk.injEq]

theorem C3_witness :
    adjust_weights_for_missing_data callW1 callW4 =
      ⟨DUPLICATE_DETECTION_WEIGHTS.call_time_match +
          DUPLICATE_DETECTION_WEIGHTS.contact_name_match / 2,
        DUPLICATE_DETECTION_WEIGHTS.call_duration_match,
        DUPLICATE_DETECTION_WEIGHTS.contact_name_match / 2,
        DUPLICATE_DETECTION_WEIGHTS.company_name_match⟩ :=
  (C3_weights_amended callW1 callW4).2.1 (by decide) (by decide)

/-- C2 counterexample: for two identical unparseable inputs the claim
requires the parse-failure fallback score 0.95 (equal after whitespace
removal), but the source returns 1.0 from its exact-equality check,
which runs before any parsing. -/
theorem C2_counterexample :
    parseDatetime (normalizeTimeStr "hello") = none ∧
    removeSpaces (normalizeTimeStr "hello") = removeSpaces (normalizeTimeStr "hello") ∧
    calculate_time_similarity (some "hello") (some "hello") = 1 ∧
    (1 : ℚ) ≠ 19/20 := by
  refine ⟨by decide, rfl, by with_unfolding_all decide, by norm_num⟩

/-- C2 (amended): a null or empty input scores 0; two inputs whose
normalised forms are exactly equal score 1.0 (checked before parsing);
for two parseable timestamps an unequal date part scores 0 and an equal
date part maps the minute difference of the time parts to the tiers
0 min to 1.0, at most 3 to 0.95, at most 5 to 0.9, at most 10 to 0.7, at
most 15 to 0.5 and otherwise 0.2; and when parsing fails on either side
the score is 1.0 for exactly equal normalised strings, 0.95 when they
are equal after removing all spaces, 0.8 when they have equal length and
differ in at most two characters, and 0 otherwise. -/
theorem C2_time_similarity_amended :
    (∀ o : Option String, calculate_time_similarity none o = 0 ∧
      calculate_time_similarity o none = 0 ∧ calculate_time_similarity (some "") o = 0) ∧
    (∀ s1 s2 : String, s1 ≠ "" → s2 ≠ "" →
      (normalizeTimeStr s1 = normalizeTimeStr s2 →
        calculate_time_similarity (some s1) (some s2) = 1) ∧
      (∀ d1 x d2 y, parseDatetime (normalizeTimeStr s1) = some (d1, x) →
        parseDatetime (normalizeTimeStr s2) = some (d2, y) →
        (d1 ≠ d2 → calculate_time_similarity (some s1) (some s2) = 0) ∧
        (d1 = d2 → ∀ m1 m2, minutesOf x = some m1 → minutesOf y = some m2 →
          calculate_time_similarity (some s1) (some s2) =
            (if Int.natAbs ((m1 : ℤ) - (m2 : ℤ)) = 0 then 1
             else if Int.natAbs ((m1 : ℤ) - (m2 : ℤ)) ≤ 3 then 19/20
             else if Int.natAbs ((m1 : ℤ) - (m2 : ℤ)) ≤ 5 then 9/10
             else if Int.natAbs ((m1 : ℤ) - (m2 : ℤ)) ≤ 10 then 7/10
             else if Int.natAbs ((m1 : ℤ) - (m2 : ℤ)) ≤ 15 then 1/2
             else 1/5))) ∧
      ((parseDatetime (normalizeTimeStr s1) = none ∨
          parseDatetime (normalizeTimeStr s2) = none) →
        calculate_time_similarity (some s1) (some s2) =
          (if normalizeTimeStr s1 = normalizeTimeStr s2 then 1
           else if removeSpaces (normalizeTimeStr s1) = removeSpaces (normalizeTimeStr s2)
             then 19/20
           else if (normalizeTimeStr s1).length = (normalizeTimeStr s2).length ∧
               diffCount (normalizeTimeStr s1) (normalizeTimeStr s2) ≤ 2 then 4/5
           else 0))) := by
  constructor
  · intro o
    refine ⟨rfl, ?_, ?_⟩
    · cases h : truthyStr o <;> simp [calculate_time_similarity, truthyStr, h]
    · cases h : truthyStr o <;> simp [calculate_time_similarity, truthyStr, h]
  · intro s1 s2 h1 h2
    have ht1 : truthyStr (some s1) = true := by simp [truthyStr, h1]
    have ht2 : truthyStr (some s2) = true := by simp [truthyStr, h2]
    have hcond : ¬ (¬ truthyStr (some s1) = true ∨ ¬ truthyStr (some s2) = true) := by
      simp [ht1, ht2]
    have hunf : calculate_time_similarity (some s1) (some s2) =
        (if normalizeTimeStr s1 = normalizeTimeStr s2 then 1
         else
           match parseDatetime (normalizeTimeStr s1), parseDatetime (normalizeTimeStr s2) with
           | some (d1, t1o), some (d2, t2o) => if d1 ≠ d2 then 0 else sameDateScore t1o t2o
           | _, _ => fallbackScore (normalizeTimeStr s1) (normalizeTimeStr s2)) := by
      unfold calculate_time_similarity
      rw [if_neg hcond]
      rfl
    refine ⟨?_, ?_, ?_⟩
    · intro heq
      rw [hunf, if_pos heq]
    · intro d1 x d2 y hp1 hp2
      constructor
      · intro hne
        have hab : normalizeTimeStr s1 ≠ normalizeTimeStr s2 := by
          intro h
          rw [h, hp2] at hp1
          injection hp1 with hpair
          exact hne (congrArg Prod.fst hpair).symm
        rw [hunf, if_neg hab, hp1, hp2]
        dsimp only
        rw [if_pos hne]
      · intro heq12 m1 m2 hm1 hm2
        by_cases hab : normalizeTimeStr s1 = normalizeTimeStr s2
        · have hxy : x = y := by
            rw [hab, hp2] at hp1
            injection hp1 with hpair
            exact (congrArg Prod.snd hpair).symm
          have hm12 : m1 = m2 := by
            rw [hxy, hm2] at hm1
            injection hm1 with hh
            exact hh.symm
          have hdz : Int.natAbs ((m1 : ℤ) - (m2 : ℤ)) = 0 := by
            rw [hm12]
            simp
          rw [hunf, if_pos hab, hdz]
          norm_num
        · rw [hunf, if_neg hab, hp1, hp2]
          dsimp only
          rw [if_neg (by intro hn; exact hn heq12)]
          unfold sameDateScore
          by_cases hcl : cleanTimePart x = cleanTimePart y
          · have hmeq : minutesOf x = minutesOf y := by
              unfold minutesOf
              rw [hcl]
            rw [hmeq, hm2] at hm1
            injection hm1 with hm12
            have hdz : Int.natAbs ((m1 : ℤ) - (m2 : ℤ)) = 0 := by
              rw [hm12.symm]
              simp
            rw [if_pos hcl, hdz]
            norm_num
          · rw [if_neg hcl, hm1, hm2]
            dsimp only
            unfold tierFromMinutes
            rfl
    · intro hor
      by_cases hab : normalizeTimeStr s1 = normalizeTimeStr s2
      · rw [hunf, if_pos hab, if_pos hab]
      · rw [hunf, if_neg hab, if_neg hab]
        rcases hor with h | h
        · rw [h]
          rfl
        · rcases hp : parseDatetime (normalizeTimeStr s1) with _ | p
          · rfl
          · rcases p with ⟨pd, pt⟩
            rw [h]
            rfl

theorem C2_witness :
    calculate_time_similarity (some "2025-06-24 11:14") (some "2025-06-24 11:17") = 19/20 := by
  have h := ((C2_time_similarity_amended.2 "2025-06-24 11:14" "2025-06-24 11:17"
      (by decide) (by decide)).2.1
    ("2025-06-24".toList) ("11:14".toList) ("2025-06-24".toList) ("11:17".toList)
    (by decide) (by decide)).2 rfl 674 677 (by decide) (by decide)
  rw [h]
  norm_num

end CallAnalysis
